import Mathlib

/-!
Verification of the menyoki recording-and-encoding pipeline.

The Rust sources are embedded shallowly:
* floating-point expressions in the sources use only values for which the
  `f32`/`f64` computations are exact or provably land in the same integer
  truncation cell as the exact rational value, so they are modelled by exact
  arithmetic over `ℚ` (the relevant cast operators are modelled explicitly);
* machine integers are modelled by `ℕ`/`ℤ` together with explicit conversion
  functions mirroring `try_into().unwrap_or_default()` and `as` casts;
* the capture loop (`Recorder::record`) and the encode loop (`Gif::save`)
  are modelled as functions consuming a list of per-iteration observations
  (pending cancellation signal, provider result, clock value), one list
  element per loop iteration, so that polling happens exactly once per
  iteration by construction, as in the source;
* fallible operations return `Except`.
-/

/-! ## Numeric cast model -/

/-- Truncation of a rational toward zero, as Rust float-to-int casts do
before saturation. -/
def ratTrunc (x : ℚ) : ℤ := if 0 ≤ x then ⌊x⌋ else ⌈x⌉

/-- Saturation of an integer into the `i32` range, the final step of a Rust
float-to-`i32` `as` cast. -/
def i32Sat (n : ℤ) : ℤ := max (-2147483648) (min 2147483647 n)

/-- Rust `as i32` cast of a (finite) float value: truncate toward zero, then
saturate into the `i32` range. -/
def ratToI32 (x : ℚ) : ℤ := i32Sat (ratTrunc x)

/-- Rust `as u16` cast of a (finite) float value: truncate toward zero, then
saturate into the `u16` range (negative values collapse to `0`). -/
def ratToU16 (x : ℚ) : ℕ := if x < 0 then 0 else (min 65535 (ratTrunc x)).toNat

/-- Rust `f32::round`/`f64::round`: round half away from zero. -/
def ratRound (x : ℚ) : ℤ := if 0 ≤ x then ⌊x + 1/2⌋ else -⌊-x + 1/2⌋

/-- `u32 → u16` conversion via `try_into().unwrap_or_default()`: values that
do not fit in 16 bits are silently replaced by `0` (src/gif/mod.rs). -/
def u32ToU16orZero (n : ℕ) : ℕ := if n < 65536 then n else 0

/-- `i32 → u16` conversion via `try_into().unwrap_or_default()`: values
outside `[0, 65535]` are silently replaced by `0` (src/gif/mod.rs). -/
def i32ToU16orZero (n : ℤ) : ℕ := if 0 ≤ n ∧ n < 65536 then n.toNat else 0

/-! ## `map_range` and the numeric parameters of the encoder -/

/-- `AnimSettings::map_range` (src/anim/settings.rs): map `value` from
`fromRange` to `toRange` linearly.  The same formula backs the
`util::map_range` call in `Gif::save`. -/
def map_range (value : ℚ) (fromRange toRange : ℚ × ℚ) : ℚ :=
  toRange.1 +
    (value - fromRange.1) * (toRange.2 - toRange.1) / (fromRange.2 - fromRange.1)

/-- The codec speed parameter computed in `Gif::save` (src/gif/mod.rs):
`30 - map_range(quality.into(), (1., 100.), (0., 29.)) as i32`.
The `as i32` cast binds tighter than the subtraction in Rust. -/
def gifSpeed (quality : ℕ) : ℤ :=
  30 - ratToI32 (map_range (quality : ℚ) (1, 100) (0, 29))

/-- The per-frame display delay set in `Gif::save` (src/gif/mod.rs):
`((1. / self.fps as f32) * 1e2) as u16`, in hundredths of a second.
The model assumes `fps ≥ 1` (the claims under study restrict to positive
fps; at `fps = 0` the float division yields infinity instead). -/
def gifDelay (fps : ℕ) : ℕ := ratToU16 ((1 / (fps : ℚ)) * 100)

/-- Modelled from the spec: the speed value the specification prescribes,
`round(30 − map_range(quality, (1,100), (0,29)))`, used only to compare the
specified formula with the one implemented in `Gif::save`. -/
def specSpeedRound (quality : ℕ) : ℤ :=
  ratRound (30 - map_range (quality : ℚ) (1, 100) (0, 29))

/-- Modelled from the spec: the frame delay the specification prescribes,
`round((1/fps) × 100)`, used only to compare the specified formula with the
one implemented in `Gif::save`. -/
def specDelayRound (fps : ℕ) : ℤ := ratRound ((1 / (fps : ℚ)) * 100)

/-! ## Natural ordering (frame-file sorting) -/

/-- Comparison of two naturals as a three-way `Ordering`, the primitive used
by the natural-order string comparison. -/
def natCmp (a b : ℕ) : Ordering :=
  if a < b then .lt else if a = b then .eq else .gt

/-- A token of the natural-order decomposition of a string: a maximal run of
decimal digits read as a number, or a single non-digit character. -/
inductive NatTok where
  | num (n : ℕ)
  | ch (c : Char)
deriving DecidableEq

/-- Tokenizer for the natural-order comparison: the optional accumulator
holds the value of the digit run currently being read. -/
def natTokensAux : List Char → Option ℕ → List NatTok
  | [], none => []
  | [], some n => [.num n]
  | c :: rest, none =>
    if c.isDigit then natTokensAux rest (some (c.toNat - 48))
    else .ch c :: natTokensAux rest none
  | c :: rest, some n =>
    if c.isDigit then natTokensAux rest (some (10 * n + (c.toNat - 48)))
    else .num n :: .ch c :: natTokensAux rest none

/-- Token list of a string for natural-order comparison. -/
def natTokens (s : String) : List NatTok := natTokensAux s.data none

/-- Three-way comparison of tokens: numbers compare numerically, characters
by code point, and a number sorts before a character. -/
def tokCmp : NatTok → NatTok → Ordering
  | .num a, .num b => natCmp a b
  | .ch a, .ch b => natCmp a.toNat b.toNat
  | .num _, .ch _ => .lt
  | .ch _, .num _ => .gt

/-- Lexicographic extension of `tokCmp` to token lists. -/
def tokListCmp : List NatTok → List NatTok → Ordering
  | [], [] => .eq
  | [], _ :: _ => .lt
  | _ :: _, [] => .gt
  | a :: as, b :: bs =>
    match tokCmp a b with
    | .eq => tokListCmp as bs
    | o => o

/-- Modelled from the spec: `natord::compare` (the `natord` crate backing the
`sort_by` call in `AnimSettings::get_frames` is an external dependency whose
source is not part of this repository); per the spec, strings are ordered
"by comparing embedded numeric substrings numerically rather than
character-by-character". -/
def natCompare (a b : String) : Ordering := tokListCmp (natTokens a) (natTokens b)

/-- The non-strict order induced by `natCompare`, the order relation under
which `sort_by(|a, b| natord::compare(a, b))` sorts. -/
def natLe (a b : String) : Prop := natCompare a b ≠ .gt

instance : DecidableRel natLe := fun a b => by
  unfold natLe
  infer_instance

/-! ## Settings mapping -/

/-- Modelled from the spec: `ArgParser::parse` (src/args/parser.rs is not
among the sources); per the spec, "missing/unparsable numeric fields fall
back to documented defaults silently (never an error)".  A present,
parsable field is modelled as `some` of its parsed value. -/
def parseArg {α : Type} (supplied : Option α) (default : α) : α :=
  supplied.getD default

/-- `GifSettings` (src/gif/settings.rs). -/
structure GifSettings where
  repeat_ : ℤ
  quality : ℕ
  speed : ℚ
  fast : Bool

/-- `GifSettings::default` (src/gif/settings.rs). -/
def GifSettings.default : GifSettings :=
  { repeat_ := -1, quality := 75, speed := 1, fast := false }

/-- The argument fields `GifSettings::from_args` reads when the argument set
is present; each parsed numeric field is `some` of its value when supplied
and parsable, `none` otherwise. -/
structure GifArgs where
  repeat_ : Option ℤ
  quality : Option ℕ
  speed : Option ℚ
  fast : Bool

/-- `GifSettings::from_args` (src/gif/settings.rs): `none` stands for an
absent argument set (`parser.args == None`). -/
def GifSettings.from_args (args : Option GifArgs) : GifSettings :=
  match args with
  | some m =>
    { repeat_ := parseArg m.repeat_ GifSettings.default.repeat_ - 1
      quality := parseArg m.quality GifSettings.default.quality
      speed := parseArg m.speed GifSettings.default.speed
      fast := m.fast }
  | none => GifSettings.default

/-- `AnimSettings` (src/anim/settings.rs); frame paths are modelled as the
strings they are built from (`PathBuf::from` is injective on them). -/
structure AnimSettings where
  fps : ℕ
  repeat_ : ℤ
  quality : ℕ
  speed : ℚ
  cut : ℚ × ℚ
  frames : List String
  gifski : Bool × Bool

/-- `AnimSettings::default` (src/anim/settings.rs). -/
def AnimSettings.default : AnimSettings :=
  { fps := 20, repeat_ := -1, quality := 75, speed := 1, cut := (0, 0),
    frames := [], gifski := (false, false) }

/-- The argument fields `AnimSettings::from_parser` reads when the argument
set is present.  `dir` holds the file names a `--dir` scan produced, in
directory order; `frames` holds an explicit frame list. -/
structure AnimArgs where
  fps : Option ℕ
  repeat_ : Option ℤ
  quality : Option ℕ
  speed : Option ℚ
  cutBeginning : Option ℚ
  cutEnd : Option ℚ
  dir : Option (List String)
  frames : Option (List String)
  noSort : Bool
  gifski : Bool
  fast : Bool

/-- The raw value list of `AnimSettings::get_frames` before sorting
(src/anim/settings.rs): a directory scan, an explicit list, or empty. -/
def AnimSettings.frameValues (m : AnimArgs) : List String :=
  match m.dir with
  | some entries => entries
  | none =>
    match m.frames with
    | some vs => vs
    | none => []

/-- `AnimSettings::get_frames` (src/anim/settings.rs): the raw values,
sorted with `natord::compare` unless `--no-sort` is present. -/
def AnimSettings.get_frames (m : AnimArgs) : List String :=
  if !m.noSort then List.insertionSort natLe (AnimSettings.frameValues m)
  else AnimSettings.frameValues m

/-- `AnimSettings::from_parser` (src/anim/settings.rs): `none` stands for an
absent argument set. -/
def AnimSettings.from_parser (args : Option AnimArgs) : AnimSettings :=
  match args with
  | some m =>
    { fps :=
        if 0 < parseArg m.fps AnimSettings.default.fps then
          parseArg m.fps AnimSettings.default.fps
        else AnimSettings.default.fps
      repeat_ := parseArg m.repeat_ AnimSettings.default.repeat_ - 1
      quality := parseArg m.quality AnimSettings.default.quality
      speed := parseArg m.speed AnimSettings.default.speed
      cut := (parseArg m.cutBeginning (AnimSettings.default.cut.1) * 1000,
              parseArg m.cutEnd (AnimSettings.default.cut.2) * 1000)
      frames := AnimSettings.get_frames m
      gifski := (m.gifski || m.fast, m.fast) }
  | none => AnimSettings.default

/-! ## The GIF encoder (`Gif::new` and `Gif::save`) -/

/-- `Repeat` of the gif crate, as set by `Gif::new`. -/
inductive GifRepeat where
  | finite (n : ℕ)
  | infinite
deriving DecidableEq

/-- The capture rectangle (src/image/geometry.rs is not among the sources;
only the fields `Gif::new` reads are modelled). -/
structure Geometry where
  x : ℕ
  y : ℕ
  width : ℕ
  height : ℕ

/-- The container parameters `Gif::new` (src/gif/mod.rs) hands to the gif
crate writer: the canvas dimensions after the `u16` conversions and the
loop policy derived from the stored repeat value.  The underlying writer is
an abstract byte sink (as in the repository test, which writes into a
`Vec`), so its I/O error path is out of model scope; `Gif::new` itself
never rejects out-of-range dimensions or repeat values. -/
structure GifConfig where
  width : ℕ
  height : ℕ
  loopPolicy : GifRepeat
  fps : ℕ
  quality : ℕ

/-- `Gif::new` (src/gif/mod.rs). -/
def gifNew (geometry : Geometry) (fps : ℕ) (settings : GifSettings) : GifConfig :=
  { width := u32ToU16orZero geometry.width
    height := u32ToU16orZero geometry.height
    loopPolicy :=
      if 0 ≤ settings.repeat_ then GifRepeat.finite (i32ToU16orZero settings.repeat_)
      else GifRepeat.infinite
    fps := fps
    quality := settings.quality }

/-- An `Image` as consumed by `Gif::save`: its geometry and an abstract
pixel payload (the channel-layout conversion `get_data(ColorType::Rgba8)`
is carried opaquely). -/
structure GImage where
  width : ℕ
  height : ℕ
  data : ℕ

/-- One frame as written into the GIF container by `Gif::save`:
`Frame::from_rgba_speed(w16, h16, data, speed)` followed by the delay
assignment. -/
structure GFrame where
  width : ℕ
  height : ℕ
  data : ℕ
  speed : ℤ
  delay : ℕ
deriving DecidableEq

/-- The frame `Gif::save` builds from one image. -/
def encodeFrame (fps quality : ℕ) (img : GImage) : GFrame :=
  { width := u32ToU16orZero img.width
    height := u32ToU16orZero img.height
    data := img.data
    speed := gifSpeed quality
    delay := gifDelay fps }

/-- The loop of `Gif::save` (src/gif/mod.rs).  `cancel i` is what the i-th
`input_state.check_cancel_keys()` call observes (one call per iteration,
before the frame is encoded).  The abstract sink accepts every write, so
the `write_frame` error path is out of model scope.  Returns the frames
written and the result value of the function. -/
def gifSaveLoop (fps quality : ℕ) (cancel : ℕ → Bool) :
    ℕ → List GFrame → List GImage → List GFrame × Except String Unit
  | _, written, [] => (written, Except.ok ())
  | i, written, img :: rest =>
    if cancel i then (written, Except.ok ())
    else gifSaveLoop fps quality cancel (i + 1)
      (written ++ [encodeFrame fps quality img]) rest

/-- `Gif::save` (src/gif/mod.rs): encode the images in order, checking the
cancellation state before each frame; on cancellation the loop breaks (with
a log warning) and the function returns `Ok(())` exactly as on the complete
path. -/
def gifSave (fps quality : ℕ) (images : List GImage) (cancel : ℕ → Bool) :
    List GFrame × Except String Unit :=
  gifSaveLoop fps quality cancel 0 [] images

/-! ## The capture loop (`Recorder::record`) -/

/-- A frame as accumulated by the capture loop: the image returned by the
provider plus the computed display delay. -/
structure RFrame where
  image : ℕ
  delay : ℕ
deriving DecidableEq

/-- What one iteration of the capture loop observes: whether a cancellation
message is pending at the `try_recv` poll, what `get_image()` returns (the
image is an abstract payload), and what `clock.tick()` returns at the end
of the iteration. -/
structure RecordInput where
  cancel : Bool
  image : Option ℕ
  tickRet : ℚ

/-- Outcome of running the capture loop on finitely many observed
iterations. -/
inductive RecordOutcome where
  | finished (frames : List RFrame)
  | panicked (framesLost : List RFrame)
  | running (frames : List RFrame)
deriving DecidableEq

/-- The capture loop body of `Recorder::record` (src/record/mod.rs), one
list element per iteration: poll the cancellation channel once at the
iteration boundary (stop and hand back the frames on a pending signal),
recompute the drift-corrected tick value, call the image provider —
`get_image().unwrap()` panics when the provider yields no image, losing the
frames accumulated so far with the worker — append the frame, and run
`clock.tick()`.  `g` is the `get_fps(TimeUnit::Millisecond)` value of
the clock. -/
def recordLoop (g : ℚ) : ℚ → List RFrame → List RecordInput → RecordOutcome
  | _, frames, [] => RecordOutcome.running frames
  | tick, frames, inp :: rest =>
    if inp.cancel then RecordOutcome.finished frames
    else
      let t : ℚ :=
        if 0 ≤ tick then g - (ratRound (tick / 1000000) : ℚ) else g
      match inp.image with
      | none => RecordOutcome.panicked frames
      | some img =>
        recordLoop g inp.tickRet
          (frames ++ [{ image := img, delay := ratToU16 (t / 10) }]) rest

/-- `Recorder::record` (src/record/mod.rs): the spawned worker runs the
capture loop starting from `tick = 0.0` with an empty frame vector. -/
def record (g : ℚ) (inputs : List RecordInput) : RecordOutcome :=
  recordLoop g 0 [] inputs

/-! ## Theorems -/

lemma map_range_quality_eq (q : ℕ) :
    map_range (q : ℚ) (1, 100) (0, 29) = 29 * ((q : ℚ) - 1) / 99 := by
  unfold map_range
  ring

lemma gifSpeed_eq_sub_floor (q : ℕ) (h1 : 1 ≤ q) (h100 : q ≤ 100) :
    gifSpeed q = 30 - ⌊map_range (q : ℚ) (1, 100) (0, 29)⌋ ∧
      1 ≤ gifSpeed q ∧ gifSpeed q ≤ 30 := by
  have hq1 : (1 : ℚ) ≤ (q : ℚ) := by exact_mod_cast h1
  have hq100 : (q : ℚ) ≤ 100 := by exact_mod_cast h100
  have hm : map_range (q : ℚ) (1, 100) (0, 29) = 29 * ((q : ℚ) - 1) / 99 :=
    map_range_quality_eq q
  have h0 : 0 ≤ map_range (q : ℚ) (1, 100) (0, 29) := by
    rw [hm]
    exact div_nonneg (mul_nonneg (by norm_num) (by linarith)) (by norm_num)
  have h29 : map_range (q : ℚ) (1, 100) (0, 29) ≤ 29 := by
    rw [hm, div_le_iff₀ (by norm_num : (0:ℚ) < 99)]
    nlinarith
  have hfl0 : 0 ≤ ⌊map_range (q : ℚ) (1, 100) (0, 29)⌋ :=
    Int.le_floor.mpr (by exact_mod_cast h0)
  have hfl29 : ⌊map_range (q : ℚ) (1, 100) (0, 29)⌋ ≤ 29 := by
    have := le_trans (Int.floor_le (map_range (q : ℚ) (1, 100) (0, 29))) h29
    exact_mod_cast this
  have htr : ratTrunc (map_range (q : ℚ) (1, 100) (0, 29)) =
      ⌊map_range (q : ℚ) (1, 100) (0, 29)⌋ := if_pos h0
  have hsat : ratToI32 (map_range (q : ℚ) (1, 100) (0, 29)) =
      ⌊map_range (q : ℚ) (1, 100) (0, 29)⌋ := by
    rw [ratToI32, htr, i32Sat]
    omega
  unfold gifSpeed
  rw [hsat]
  omega


lemma gifDelay_eq_trunc (f : ℕ) (hf : 0 < f) : gifDelay f = 100 / f := by
  have hf1 : (1 : ℚ) ≤ (f : ℚ) := by exact_mod_cast hf
  have hx : (1 / (f : ℚ)) * 100 = (100 : ℚ) / f := by ring
  unfold gifDelay ratToU16
  rw [hx]
  have h0 : (0 : ℚ) ≤ 100 / f := by positivity
  rw [if_neg (not_lt.mpr h0)]
  unfold ratTrunc
  rw [if_pos h0]
  have h100 : (100 : ℚ) / f ≤ 100 := div_le_self (by norm_num) hf1
  have hfl : ⌊(100 : ℚ) / f⌋ ≤ 100 := by
    have := le_trans (Int.floor_le ((100 : ℚ) / f)) h100
    exact_mod_cast this
  have hfl0 : 0 ≤ ⌊(100 : ℚ) / f⌋ := Int.le_floor.mpr (by exact_mod_cast h0)
  rw [min_eq_right (by omega : ⌊(100 : ℚ) / f⌋ ≤ 65535)]
  rw [Int.floor_toNat]
  have hnd : ⌊(100 : ℚ) / (f : ℚ)⌋₊ = ⌊(100 : ℚ)⌋₊ / f :=
    Nat.floor_div_nat (100 : ℚ) f
  simpa using hnd

/-- Claim C1 counterexample: at quality 1 the computed speed is 30, not the
claimed 29 (and 30 lies outside the claimed range [0,29]); at quality 100 it
is 1, not 0; and at quality 14 the computed speed differs from the
specified `round(30 - map_range(quality, (1,100), (0,29)))` formula. -/
theorem claim_C1_counterexample :
    gifSpeed 1 = 30 ∧ gifSpeed 1 ≠ 29 ∧ gifSpeed 100 = 1 ∧ gifSpeed 100 ≠ 0 ∧
      gifSpeed 14 = 27 ∧ specSpeedRound 14 = 26 := by
  have h1 : gifSpeed 1 = 30 := by
    norm_num [gifSpeed, ratToI32, ratTrunc, i32Sat, map_range]
  have h100 : gifSpeed 100 = 1 := by
    norm_num [gifSpeed, ratToI32, ratTrunc, i32Sat, map_range]
  have h14 : gifSpeed 14 = 27 := by
    norm_num [gifSpeed, ratToI32, ratTrunc, i32Sat, map_range]
  have h14s : specSpeedRound 14 = 26 := by
    norm_num [specSpeedRound, ratRound, map_range]
  exact ⟨h1, by omega, h100, by omega, h14, h14s⟩

/-- Claim C1 (amended): for every quality in [1,100] the codec speed
parameter computed by the encoder equals
`30 − trunc(map_range(quality, (1,100), (0,29)))` (truncation, not
rounding) and lies in [1,30]; quality 1 yields speed 30 and quality 100
yields speed 1. -/
theorem claim_C1_theorem :
    (∀ q : ℕ, 1 ≤ q → q ≤ 100 →
      gifSpeed q = 30 - ⌊map_range (q : ℚ) (1, 100) (0, 29)⌋ ∧
        1 ≤ gifSpeed q ∧ gifSpeed q ≤ 30) ∧
      gifSpeed 1 = 30 ∧ gifSpeed 100 = 1 := by
  refine ⟨fun q h1 h100 => gifSpeed_eq_sub_floor q h1 h100, ?_, ?_⟩ <;>
    norm_num [gifSpeed, ratToI32, ratTrunc, i32Sat, map_range]

/-- Witness for claim C1: the amended claim instantiated at quality 50. -/
theorem claim_C1_witness :
    gifSpeed 50 = 30 - ⌊map_range ((50 : ℕ) : ℚ) (1, 100) (0, 29)⌋ ∧
      1 ≤ gifSpeed 50 ∧ gifSpeed 50 ≤ 30 :=
  claim_C1_theorem.1 50 (by decide) (by decide)

/-- Claim C7 counterexample: at fps 6 the delay written into the frame is
16 hundredths of a second, while `round((1/6) × 100) = 17`. -/
theorem claim_C7_counterexample :
    gifDelay 6 = 16 ∧ specDelayRound 6 = 17 ∧
      ((gifDelay 6 : ℤ) ≠ specDelayRound 6) := by
  have h1 : gifDelay 6 = 16 := by
    norm_num [gifDelay, ratToU16, ratTrunc]
    decide
  have h2 : specDelayRound 6 = 17 := by
    norm_num [specDelayRound, ratRound]
  refine ⟨h1, h2, ?_⟩
  rw [h1, h2]
  decide

/-- Claim C7 (amended): for every fps value f > 0 the display delay written
into each GIF frame, in hundredths of a second, equals
`trunc((1/f) × 100)` — truncation toward zero, i.e. `⌊100/f⌋`, not
rounding. -/
theorem claim_C7_theorem (f : ℕ) (hf : 0 < f) : gifDelay f = 100 / f :=
  gifDelay_eq_trunc f hf

/-- Witness for claim C7: the amended claim instantiated at fps 6. -/
theorem claim_C7_witness : gifDelay 6 = 100 / 6 :=
  claim_C7_theorem 6 (by decide)

/-- Claim C5: for every explicitly supplied user-facing repeat value r, the
settings mapping stores r − 1, in both `GifSettings::from_args` and
`AnimSettings::from_parser`. -/
theorem claim_C5_theorem :
    (∀ (a : GifArgs) (r : ℤ), a.repeat_ = some r →
      (GifSettings.from_args (some a)).repeat_ = r - 1) ∧
    (∀ (m : AnimArgs) (r : ℤ), m.repeat_ = some r →
      (AnimSettings.from_parser (some m)).repeat_ = r - 1) := by
  constructor
  · intro a r hr
    simp [GifSettings.from_args, parseArg, hr]
  · intro m r hr
    simp [AnimSettings.from_parser, parseArg, hr]

/-- Witness for claim C5: user-requested repeat 5 is stored as 4 by
`GifSettings::from_args`, and user-requested repeat 0 is stored as −1 by
`AnimSettings::from_parser`. -/
theorem claim_C5_witness :
    (GifSettings.from_args (some
      { repeat_ := some 5, quality := some 10, speed := some (11/10),
        fast := true })).repeat_ = 4 ∧
    (AnimSettings.from_parser (some
      { fps := some 15, repeat_ := some 0, quality := none, speed := none,
        cutBeginning := none, cutEnd := none, dir := none, frames := none,
        noSort := false, gifski := false, fast := false })).repeat_ = -1 := by
  constructor
  · have h := claim_C5_theorem.1
      { repeat_ := some 5, quality := some 10, speed := some (11/10),
        fast := true } 5 rfl
    omega
  · have h := claim_C5_theorem.2
      { fps := some 15, repeat_ := some 0, quality := none, speed := none,
        cutBeginning := none, cutEnd := none, dir := none, frames := none,
        noSort := false, gifski := false, fast := false } 0 rfl
    omega

/-- Claim C6: when the argument set is present but no repeat value is
supplied, the already-offset default −1 is decremented again, so the stored
repeat value is −2 (the default minus one), in both `GifSettings::from_args`
and `AnimSettings::from_parser`. -/
theorem claim_C6_theorem :
    (∀ a : GifArgs, a.repeat_ = none →
      (GifSettings.from_args (some a)).repeat_ =
        GifSettings.default.repeat_ - 1 ∧
      (GifSettings.from_args (some a)).repeat_ = -2) ∧
    (∀ m : AnimArgs, m.repeat_ = none →
      (AnimSettings.from_parser (some m)).repeat_ =
        AnimSettings.default.repeat_ - 1 ∧
      (AnimSettings.from_parser (some m)).repeat_ = -2) := by
  constructor
  · intro a hr
    constructor <;> simp [GifSettings.from_args, parseArg, hr, GifSettings.default]
  · intro m hr
    constructor <;>
      simp [AnimSettings.from_parser, parseArg, hr, AnimSettings.default]

/-- Witness for claim C6: with the gif argument set present and `--repeat`
absent, the stored repeat value is −2. -/
theorem claim_C6_witness :
    (GifSettings.from_args (some
      { repeat_ := none, quality := some 10, speed := none,
        fast := false })).repeat_ = -2 ∧
    (AnimSettings.from_parser (some
      { fps := none, repeat_ := none, quality := none, speed := none,
        cutBeginning := none, cutEnd := none, dir := none, frames := none,
        noSort := false, gifski := false, fast := false })).repeat_ = -2 :=
  ⟨(claim_C6_theorem.1 _ rfl).2, (claim_C6_theorem.2 _ rfl).2⟩

/-- Claim C10: `Gif::new` never rejects an out-of-range canvas dimension or
repeat value: a width or height above 65535 is silently replaced by 0, and
a stored repeat value above 65535 yields a finite loop count of 0. -/
theorem claim_C10_theorem (geometry : Geometry) (fps : ℕ) (s : GifSettings) :
    (65535 < geometry.width → (gifNew geometry fps s).width = 0) ∧
    (65535 < geometry.height → (gifNew geometry fps s).height = 0) ∧
    (65535 < s.repeat_ →
      (gifNew geometry fps s).loopPolicy = GifRepeat.finite 0) := by
  refine ⟨fun hw => ?_, fun hh => ?_, fun hr => ?_⟩
  · simp only [gifNew, u32ToU16orZero]
    rw [if_neg (by omega)]
  · simp only [gifNew, u32ToU16orZero]
    rw [if_neg (by omega)]
  · have h0 : 0 ≤ s.repeat_ := by omega
    simp only [gifNew, if_pos h0, i32ToU16orZero]
    rw [if_neg (by omega)]

/-- Witness for claim C10: a 70000 × 70000 geometry with stored repeat
70000 produces a 0 × 0 canvas with a finite loop count of 0. -/
theorem claim_C10_witness :
    (gifNew { x := 0, y := 0, width := 70000, height := 70000 } 10
      { repeat_ := 70000, quality := 75, speed := 1, fast := false }).width = 0 ∧
    (gifNew { x := 0, y := 0, width := 70000, height := 70000 } 10
      { repeat_ := 70000, quality := 75, speed := 1, fast := false }).height = 0 ∧
    (gifNew { x := 0, y := 0, width := 70000, height := 70000 } 10
      { repeat_ := 70000, quality := 75, speed := 1,
        fast := false }).loopPolicy = GifRepeat.finite 0 := by
  have h := claim_C10_theorem
    { x := 0, y := 0, width := 70000, height := 70000 } 10
    { repeat_ := 70000, quality := 75, speed := 1, fast := false }
  exact ⟨h.1 (by decide), h.2.1 (by decide), h.2.2 (by decide)⟩

lemma gifSaveLoop_cancel_at (fps quality : ℕ) (cancel : ℕ → Bool) (k : ℕ)
    (hc : ∀ j, cancel j = true ↔ k ≤ j) :
    ∀ (images : List GImage) (i : ℕ) (written : List GFrame),
      i ≤ k → k - i ≤ images.length →
      gifSaveLoop fps quality cancel i written images =
        (written ++ (images.take (k - i)).map (encodeFrame fps quality),
          Except.ok ()) := by
  intro images
  induction images with
  | nil =>
    intro i written hik hlen
    have h0 : k - i = 0 := by simpa using hlen
    simp [gifSaveLoop, h0]
  | cons img rest ih =>
    intro i written hik hlen
    by_cases hki : k ≤ i
    · have hie : i = k := le_antisymm hik hki
      have h0 : k - i = 0 := by omega
      simp [gifSaveLoop, (hc i).mpr hki, h0]
    · have hcf : cancel i = false := by
        rcases h' : cancel i with _ | _
        · rfl
        · exact absurd ((hc i).mp h') hki
      have hik' : i + 1 ≤ k := by omega
      have hlen' : k - (i + 1) ≤ rest.length := by
        simp at hlen
        omega
      have hrec := ih (i + 1) (written ++ [encodeFrame fps quality img]) hik' hlen'
      have hsub : k - i = (k - (i + 1)) + 1 := by omega
      simp only [gifSaveLoop, hcf, Bool.false_eq_true, if_false, hrec, hsub,
        List.take_succ_cons, List.map_cons, List.append_assoc,
        List.singleton_append]

/-- Claim C3 counterexample: a run of `Gif::save` canceled before any frame
and an uncanceled complete run both return `Ok(())`; the "stopped early"
outcome is not distinguishable from plain success at the API boundary (only
a log warning is emitted). -/
theorem claim_C3_counterexample :
    (gifSave 10 75 [{ width := 1, height := 2, data := 10 },
      { width := 1, height := 2, data := 11 }] (fun _ => true)).2 =
        Except.ok () ∧
    (gifSave 10 75 [{ width := 1, height := 2, data := 10 },
      { width := 1, height := 2, data := 11 }] (fun _ => false)).2 =
        Except.ok () ∧
    (gifSave 10 75 [{ width := 1, height := 2, data := 10 },
      { width := 1, height := 2, data := 11 }] (fun _ => true)).2 =
      (gifSave 10 75 [{ width := 1, height := 2, data := 10 },
        { width := 1, height := 2, data := 11 }] (fun _ => false)).2 :=
  ⟨rfl, rfl, rfl⟩

/-- Claim C3 (amended): `Gif::save` checks the cancellation state before
encoding each frame and stops at the first set check: with the state set
from the k-th check on (k ≤ n), exactly the k frames already encoded are in
the output and no further frame is written; the call returns `Ok(())`,
which is a non-error result but identical to the plain-success result (the
early stop is signalled only by a log warning, not by the return value). -/
theorem claim_C3_theorem (fps quality : ℕ) (images : List GImage) (k : ℕ)
    (cancel : ℕ → Bool) (hc : ∀ j, cancel j = true ↔ k ≤ j)
    (hk : k ≤ images.length) :
    (gifSave fps quality images cancel).1 =
      (images.take k).map (encodeFrame fps quality) ∧
    (gifSave fps quality images cancel).1.length = k ∧
    (gifSave fps quality images cancel).2 = Except.ok () := by
  have h := gifSaveLoop_cancel_at fps quality cancel k hc images 0 []
    (Nat.zero_le k) (by simpa using hk)
  unfold gifSave
  rw [h]
  simp [List.length_take, min_eq_left hk]

/-- Witness for claim C3: two frames, cancellation set from the second
check on; exactly one frame is written and the result is `Ok(())`. -/
theorem claim_C3_witness :
    (gifSave 10 75 [{ width := 1, height := 2, data := 10 },
      { width := 1, height := 2, data := 11 }]
        (fun j => decide (1 ≤ j))).1 =
      ([{ width := 1, height := 2, data := 10 },
        { width := 1, height := 2, data := 11 }].take 1).map
          (encodeFrame 10 75) ∧
    (gifSave 10 75 [{ width := 1, height := 2, data := 10 },
      { width := 1, height := 2, data := 11 }]
        (fun j => decide (1 ≤ j))).1.length = 1 ∧
    (gifSave 10 75 [{ width := 1, height := 2, data := 10 },
      { width := 1, height := 2, data := 11 }]
        (fun j => decide (1 ≤ j))).2 = Except.ok () :=
  claim_C3_theorem 10 75
    [{ width := 1, height := 2, data := 10 },
      { width := 1, height := 2, data := 11 }] 1 (fun j => decide (1 ≤ j))
    (fun j => by simp) (by decide)

/-- Claim C4 counterexample: calling `Gif::save` with zero frames succeeds,
returning `Ok(())` with an empty output; no `EmptyResultError` and no
"No frames found to save." failure is produced by the encoder. -/
theorem claim_C4_counterexample :
    gifSave 10 75 [] (fun _ => false) = ([], Except.ok ()) := rfl

/-- Claim C4 (amended): for every configuration, `Gif::save` on an empty
frame sequence writes no frame and returns plain success `Ok(())` — the
"No frames found to save." rejection is not performed by the encoder (the
`test_main` test of the repository observes that message from a layer
above the encoder, which is outside src/). -/
theorem claim_C4_theorem (fps quality : ℕ) (cancel : ℕ → Bool) :
    gifSave fps quality [] cancel = ([], Except.ok ()) := rfl

lemma recordLoop_cleanRun (g : ℚ) :
    ∀ (pre rest : List RecordInput) (tick : ℚ) (frames : List RFrame),
      (∀ i ∈ pre, i.cancel = false ∧ i.image.isSome) →
      ∃ (fs : List RFrame) (tick' : ℚ),
        recordLoop g tick frames (pre ++ rest) =
          recordLoop g tick' (frames ++ fs) rest ∧
        fs.length = pre.length ∧
        fs.map RFrame.image = pre.filterMap RecordInput.image := by
  intro pre
  induction pre with
  | nil =>
    intro rest tick frames _
    exact ⟨[], tick, by simp, rfl, rfl⟩
  | cons i pre ih =>
    intro rest tick frames hpre
    have hi := hpre i (List.mem_cons_self i pre)
    obtain ⟨img, himg⟩ := Option.isSome_iff_exists.mp hi.2
    have hpre' : ∀ j ∈ pre, j.cancel = false ∧ j.image.isSome := fun j hj =>
      hpre j (List.mem_cons_of_mem i hj)
    obtain ⟨fs, tick', h1, h2, h3⟩ := ih rest i.tickRet
      (frames ++ [RFrame.mk img (ratToU16
        ((if 0 ≤ tick then g - (ratRound (tick / 1000000) : ℚ) else g)
          / 10))]) hpre'
    refine ⟨RFrame.mk img (ratToU16
      ((if 0 ≤ tick then g - (ratRound (tick / 1000000) : ℚ) else g)
        / 10)) :: fs, tick', ?_, by simp [h2], ?_⟩
    · rw [List.cons_append]
      simp only [recordLoop, hi.1, Bool.false_eq_true, if_false, himg]
      rw [h1]
      simp
    · simp [h3, List.filterMap_cons, himg]

/-- Claim C2 counterexample: a provider returning no image on the first
iteration makes the capture worker panic (`get_image().unwrap()`), i.e. the
worker crashes; no `CaptureError` value exists in the encoder and the
frames collected are lost with the panicking thread instead of being
surfaced. -/
theorem claim_C2_counterexample :
    record 50 [{ cancel := false, image := none, tickRet := 0 }] =
      RecordOutcome.panicked [] := rfl

/-- Claim C2 (amended): when the image provider reports unavailability at an
iteration the loop reaches (after any number of clean iterations), the
capture worker panics on the `unwrap` — it crashes rather than aborting
cleanly; no `CaptureError` is surfaced, and the frames collected before the
failure are lost inside the panicking worker rather than being returned. -/
theorem claim_C2_theorem (g : ℚ) (pre : List RecordInput)
    (iFail : RecordInput) (rest : List RecordInput)
    (hpre : ∀ i ∈ pre, i.cancel = false ∧ i.image.isSome)
    (hcf : iFail.cancel = false) (him : iFail.image = none) :
    ∃ fs : List RFrame,
      record g (pre ++ iFail :: rest) = RecordOutcome.panicked fs ∧
      fs.length = pre.length ∧
      fs.map RFrame.image = pre.filterMap RecordInput.image := by
  obtain ⟨fs, tick', h1, h2, h3⟩ :=
    recordLoop_cleanRun g pre (iFail :: rest) 0 [] hpre
  refine ⟨fs, ?_, h2, h3⟩
  unfold record
  rw [h1]
  simp [recordLoop, hcf, him]

/-- Witness for claim C2: one clean iteration capturing image 7, then the
provider fails; the worker ends in the panic outcome. -/
theorem claim_C2_witness :
    ∃ fs : List RFrame,
      record 50 [{ cancel := false, image := some 7, tickRet := 3 },
        { cancel := false, image := none, tickRet := 0 }] =
          RecordOutcome.panicked fs ∧
      fs.length = 1 ∧
      fs.map RFrame.image = [7] := by
  have h := claim_C2_theorem 50
    [{ cancel := false, image := some 7, tickRet := 3 }]
    { cancel := false, image := none, tickRet := 0 } []
    (by intro i hi; simp at hi; subst hi; exact ⟨rfl, rfl⟩) rfl rfl
  simpa using h

/-- Claim C8: the capture loop polls the cancellation channel exactly once
per iteration, at the iteration boundary (structural in `recordLoop`, which
consumes one observation per iteration and reads its `cancel` field exactly
once, before anything else); whenever the signal is pending at that check
the loop stops and returns exactly the frames collected in the earlier
iterations (possibly none), and no frame is appended after the signal has
been observed. -/
theorem claim_C8_theorem (g : ℚ) (pre : List RecordInput)
    (cIn : RecordInput) (rest : List RecordInput)
    (hpre : ∀ i ∈ pre, i.cancel = false ∧ i.image.isSome)
    (hc : cIn.cancel = true) :
    ∃ fs : List RFrame,
      record g (pre ++ cIn :: rest) = RecordOutcome.finished fs ∧
      fs.length = pre.length ∧
      fs.map RFrame.image = pre.filterMap RecordInput.image := by
  obtain ⟨fs, tick', h1, h2, h3⟩ :=
    recordLoop_cleanRun g pre (cIn :: rest) 0 [] hpre
  refine ⟨fs, ?_, h2, h3⟩
  unfold record
  rw [h1]
  simp [recordLoop, hc]

/-- Witness for claim C8: one clean iteration capturing image 7, then a
pending cancellation signal; the loop returns exactly that one frame. -/
theorem claim_C8_witness :
    ∃ fs : List RFrame,
      record 50 [{ cancel := false, image := some 7, tickRet := 3 },
        { cancel := true, image := some 9, tickRet := 0 }] =
          RecordOutcome.finished fs ∧
      fs.length = 1 ∧
      fs.map RFrame.image = [7] := by
  have h := claim_C8_theorem 50
    [{ cancel := false, image := some 7, tickRet := 3 }]
    { cancel := true, image := some 9, tickRet := 0 } []
    (by intro i hi; simp at hi; subst hi; exact ⟨rfl, rfl⟩) rfl
  simpa using h

lemma natCmp_eq_lt {a b : ℕ} : natCmp a b = .lt ↔ a < b := by
  unfold natCmp
  split_ifs <;> simp <;> omega

lemma natCmp_eq_eq {a b : ℕ} : natCmp a b = .eq ↔ a = b := by
  unfold natCmp
  split_ifs <;> simp <;> omega

lemma natCmp_eq_gt {a b : ℕ} : natCmp a b = .gt ↔ b < a := by
  unfold natCmp
  split_ifs <;> simp <;> omega

lemma charToNat_inj {c d : Char} : c.toNat = d.toNat ↔ c = d := by
  constructor
  · intro h
    apply Char.ext
    apply UInt32.ext
    simpa [Char.toNat, UInt32.toNat] using h
  · intro h
    rw [h]

lemma tokCmp_eq_eq {a b : NatTok} : tokCmp a b = .eq ↔ a = b := by
  cases a <;> cases b <;> simp [tokCmp, natCmp_eq_eq, charToNat_inj]

lemma natCmp_swap (a b : ℕ) : natCmp b a = (natCmp a b).swap := by
  unfold natCmp
  rcases lt_trichotomy a b with h | h | h
  · rw [if_neg (by omega), if_neg (by omega), if_pos h]
    rfl
  · subst h
    rw [if_neg (by omega), if_pos rfl]
    rfl
  · rw [if_pos h, if_neg (by omega), if_neg (by omega)]
    rfl

lemma tokCmp_swap (a b : NatTok) : tokCmp b a = (tokCmp a b).swap := by
  cases a <;> cases b <;> simp only [tokCmp] <;>
    first
      | rfl
      | exact natCmp_swap _ _

lemma tokCmp_lt_trans {a b c : NatTok} (h1 : tokCmp a b = .lt)
    (h2 : tokCmp b c = .lt) : tokCmp a c = .lt := by
  cases a <;> cases b <;> cases c <;>
    simp_all [tokCmp, natCmp_eq_lt] <;> omega

lemma tokListCmp_cons (a b : NatTok) (as bs : List NatTok) :
    tokListCmp (a :: as) (b :: bs) =
      if tokCmp a b = Ordering.eq then tokListCmp as bs else tokCmp a b := by
  rw [tokListCmp]
  rcases h : tokCmp a b with _ | _ | _ <;> simp

lemma tokListCmp_eq_eq : ∀ {x y : List NatTok},
    tokListCmp x y = Ordering.eq ↔ x = y
  | [], [] => by simp [tokListCmp]
  | [], _ :: _ => by simp [tokListCmp]
  | _ :: _, [] => by simp [tokListCmp]
  | a :: as, b :: bs => by
    rw [tokListCmp_cons]
    by_cases h : tokCmp a b = Ordering.eq
    · have hab : a = b := tokCmp_eq_eq.mp h
      subst hab
      simp [h, tokListCmp_eq_eq]
    · rw [if_neg h]
      simp only [List.cons.injEq]
      constructor
      · intro hh
        exact absurd hh h
      · rintro ⟨rfl, rfl⟩
        exact absurd (tokCmp_eq_eq.mpr rfl) h

lemma tokListCmp_swap : ∀ (x y : List NatTok),
    tokListCmp y x = (tokListCmp x y).swap
  | [], [] => by simp [tokListCmp, Ordering.swap]
  | [], _ :: _ => by simp [tokListCmp, Ordering.swap]
  | _ :: _, [] => by simp [tokListCmp, Ordering.swap]
  | a :: as, b :: bs => by
    rw [tokListCmp_cons, tokListCmp_cons, tokCmp_swap]
    by_cases h : tokCmp a b = Ordering.eq
    · rw [h]
      simp [tokListCmp_swap as bs, Ordering.swap]
    · have hs : ¬(tokCmp a b).swap = Ordering.eq := by
        rcases h2 : tokCmp a b with _ | _ | _
        · decide
        · exact absurd h2 h
        · decide
      rw [if_neg h, if_neg hs]

lemma tokListCmp_lt_trans : ∀ {x y z : List NatTok},
    tokListCmp x y = Ordering.lt → tokListCmp y z = Ordering.lt →
      tokListCmp x z = Ordering.lt
  | [], y, z => by
    intro h1 h2
    cases y with
    | nil => simp [tokListCmp] at h1
    | cons b bs =>
      cases z with
      | nil => simp [tokListCmp] at h2
      | cons c cs => simp [tokListCmp]
  | a :: as, y, z => by
    intro h1 h2
    cases y with
    | nil => simp [tokListCmp] at h1
    | cons b bs =>
      cases z with
      | nil => simp [tokListCmp] at h2
      | cons c cs =>
        rw [tokListCmp_cons] at h1 h2 ⊢
        by_cases hab : tokCmp a b = Ordering.eq
        · have habeq : a = b := tokCmp_eq_eq.mp hab
          subst habeq
          rw [if_pos hab] at h1
          by_cases hbc : tokCmp a c = Ordering.eq
          · have hbceq : a = c := tokCmp_eq_eq.mp hbc
            subst hbceq
            rw [if_pos hbc] at h2 ⊢
            exact tokListCmp_lt_trans h1 h2
          · rw [if_neg hbc] at h2 ⊢
            exact h2
        · rw [if_neg hab] at h1
          by_cases hbc : tokCmp b c = Ordering.eq
          · have hbceq : b = c := tokCmp_eq_eq.mp hbc
            subst hbceq
            rw [if_neg hab]
            exact h1
          · rw [if_neg hbc] at h2
            have hac : tokCmp a c = Ordering.lt := tokCmp_lt_trans h1 h2
            rw [if_neg (by rw [hac]; decide), hac]

instance : IsTotal String natLe where
  total a b := by
    unfold natLe natCompare
    by_cases h : tokListCmp (natTokens a) (natTokens b) = Ordering.gt
    · right
      rw [tokListCmp_swap, h]
      decide
    · left
      exact h

instance : IsTrans String natLe where
  trans a b c h1 h2 := by
    unfold natLe natCompare at h1 h2 ⊢
    rcases hab : tokListCmp (natTokens a) (natTokens b) with _ | _ | _
    · rcases hbc : tokListCmp (natTokens b) (natTokens c) with _ | _ | _
      · rw [tokListCmp_lt_trans hab hbc]
        decide
      · have he : natTokens b = natTokens c := tokListCmp_eq_eq.mp hbc
        rw [← he, hab]
        decide
      · exact absurd hbc h2
    · have he : natTokens a = natTokens b := tokListCmp_eq_eq.mp hab
      rw [he]
      exact h2
    · exact absurd hab h1

/-- Claim C9: a frame-file list (from an explicit list or a directory scan)
is naturally ordered by `get_frames` when sorting is not disabled — shown on
the example from the spec and, in general, as sortedness under the natural
order together with being a permutation of the raw values — and is kept in
its original order unchanged when the no-sort flag is present. -/
theorem claim_C9_theorem :
    AnimSettings.get_frames
      { fps := none, repeat_ := none, quality := none, speed := none,
        cutBeginning := none, cutEnd := none, dir := none,
        frames := some ["frame2.png", "frame10.png", "frame1.png"],
        noSort := false, gifski := false, fast := false } =
      ["frame1.png", "frame2.png", "frame10.png"] ∧
    (∀ m : AnimArgs, m.noSort = true →
      AnimSettings.get_frames m = AnimSettings.frameValues m) ∧
    (∀ m : AnimArgs, m.noSort = false →
      (AnimSettings.get_frames m).Sorted natLe ∧
        List.Perm (AnimSettings.get_frames m)
          (AnimSettings.frameValues m)) := by
  refine ⟨?_, ?_, ?_⟩
  · decide
  · intro m hm
    simp [AnimSettings.get_frames, hm]
  · intro m hm
    constructor
    · simpa [AnimSettings.get_frames, hm] using
        List.sorted_insertionSort natLe (AnimSettings.frameValues m)
    · simpa [AnimSettings.get_frames, hm] using
        List.perm_insertionSort natLe (AnimSettings.frameValues m)

/-- Witness for claim C9: with the no-sort flag the list is preserved
verbatim, and without it the result is naturally sorted and a permutation
of the input, at a concrete argument set. -/
theorem claim_C9_witness :
    AnimSettings.get_frames
      { fps := none, repeat_ := none, quality := none, speed := none,
        cutBeginning := none, cutEnd := none, dir := none,
        frames := some ["frame2.png", "frame10.png", "frame1.png"],
        noSort := true, gifski := false, fast := false } =
      AnimSettings.frameValues
        { fps := none, repeat_ := none, quality := none, speed := none,
          cutBeginning := none, cutEnd := none, dir := none,
          frames := some ["frame2.png", "frame10.png", "frame1.png"],
          noSort := true, gifski := false, fast := false } ∧
    (AnimSettings.get_frames
      { fps := none, repeat_ := none, quality := none, speed := none,
        cutBeginning := none, cutEnd := none,
        dir := some ["b10.png", "b2.png"], frames := none,
        noSort := false, gifski := false, fast := false }).Sorted natLe ∧
    List.Perm
      (AnimSettings.get_frames
        { fps := none, repeat_ := none, quality := none, speed := none,
          cutBeginning := none, cutEnd := none,
          dir := some ["b10.png", "b2.png"], frames := none,
          noSort := false, gifski := false, fast := false })
      (AnimSettings.frameValues
        { fps := none, repeat_ := none, quality := none, speed := none,
          cutBeginning := none, cutEnd := none,
          dir := some ["b10.png", "b2.png"], frames := none,
          noSort := false, gifski := false, fast := false }) :=
  ⟨claim_C9_theorem.2.1 _ rfl, (claim_C9_theorem.2.2 _ rfl).1,
    (claim_C9_theorem.2.2 _ rfl).2⟩
